import Mathlib

set_option maxHeartbeats 1000000

set_option maxRecDepth 8000

/-!
Verification of the Inkley PressureSensor firmware (src/main.c) against its
natural-language specification.

The development is a shallow embedding of the firmware core: the circular
sensor buffer (`circ_bbuf_t` and its push/pop), the bit-flag helpers, the
SysTick sampling/logging interrupt handler, the CAN receive handler (the
mailbox producer), and the main-loop phases (command dispatch, overrun check,
heartbeat).  Machine integers are modelled as `Nat` with an explicit
`% 4294967296` wherever 32-bit wraparound can matter.  Hardware effects
(flash erase/program, CAN transmission) are modelled as event logs inside the
state; the ADC busy-wait is driven by a readiness oracle `ready : Nat → Bool`
giving the value of `ADCIntStatus` at each poll.  On this platform (ARM EABI)
plain `char` is unsigned, so the `char` fields `FLAGS` and `MSG[8]` are
modelled as natural numbers below 256.  The transient I2C command path and the
`TimeOutClock` scratch counter are outside the claims and are not part of the
modelled state.
-/

/-! ## Global settings (main.c lines 55-152) -/

def BuildVersion : ℕ := 1002

def CAN_ID : ℕ := 0x107

def ADC_ReadTimeOut : ℕ := 100

def HeartBeatTime : ℕ := 10000

def FlashUserSpace : ℕ := 0x30000

def SENSORBUFSIZE : ℕ := 1024

/-! Command codes from the `icmd` enumeration (main.c lines 78-88). -/

def icmdReadVersion : ℕ := 0x01

def icmdReadData : ℕ := 0x02

def icmdFlashStart : ℕ := 0x03

def icmdFlashReadPos : ℕ := 0x04

def icmdFlashEraseFull : ℕ := 0x05

def icmdFlashSetSampleSize : ℕ := 0x06

def icmdFlashStatus : ℕ := 0x07

def icmdFlashGetData : ℕ := 0x08

def icmdFlashGenCSV : ℕ := 0x09

/-! CAN flag bit positions (main.c lines 250-252). -/

def CAN_F_EMPTY : ℕ := 0

def CAN_F_NEW : ℕ := 1

def CAN_F_OVERRUN : ℕ := 2

/-! ## Circular buffer (main.c lines 137-235)

`bufdata` is the backing array `SensorBufferData`, modelled as a total
function from index to stored word.  The C `int` head/tail indices are
naturals; starting from `Init_circ_bbuf` they stay in `[0, maxlen)`.  The C
functions mutate through a pointer and return a status `int`; here they
return the updated structure together with that status. -/

structure circ_bbuf_t where
  bufdata : ℕ → ℕ
  head : ℕ
  tail : ℕ
  maxlen : ℕ

def Init_circ_bbuf : circ_bbuf_t :=
  { bufdata := fun _ => 0, head := 0, tail := 0, maxlen := SENSORBUFSIZE }

def circ_bbuf_push (c : circ_bbuf_t) (data : ℕ) : circ_bbuf_t × Int :=
  let next0 := c.head + 1
  let next := if next0 ≥ c.maxlen then 0 else next0
  if next = c.tail then (c, -1)
  else
    ({ c with bufdata := fun i => if i = c.head then data else c.bufdata i,
              head := next }, 0)

/-- Pop returns (updated buffer, value written through the out pointer if
any, status).  On an empty buffer the C function returns -1 without writing
through `data`; that is modelled by returning `none`. -/
def circ_bbuf_pop (c : circ_bbuf_t) : circ_bbuf_t × Option ℕ × Int :=
  if c.head = c.tail then (c, none, -1)
  else
    let next0 := c.tail + 1
    let next := if next0 ≥ c.maxlen then 0 else next0
    ({ c with tail := next }, some (c.bufdata c.tail), 0)

/-! ## Bit utilities (main.c lines 302-356); `uint32_t` arithmetic. -/

def bit_clear (number bit : ℕ) : ℕ :=
  number &&& ((4294967296 - 1) ^^^ (1 <<< bit))

def bit_set (number bit : ℕ) : ℕ :=
  number ||| (1 <<< bit)

def bit_check (number bit : ℕ) : Bool :=
  (number >>> bit) &&& 1 != 0

/-! ## Firmware state

All mutable globals the claims touch, plus event logs standing for the flash
and CAN hardware.  The Tiva flash erases in 1-KB blocks; `erasedBlocks`
records the block base addresses erased so far, `programLog` the programmed
(address, word) pairs in order, and `unerasedWrite` latches whether some
program operation ever targeted a block that had not been erased before it. -/

def FLASH_BLOCK_SIZE : ℕ := 0x400

def blockOf (addr : ℕ) : ℕ := addr / FLASH_BLOCK_SIZE * FLASH_BLOCK_SIZE

structure FwState where
  flashIndex : ℕ
  flashSampleSize : ℕ
  globalTimer : ℕ
  heatbeatTrigger : ℕ
  buf : circ_bbuf_t
  canFlags : ℕ
  canID : ℕ
  canMsg : List ℕ
  bufDataVar : ℕ
  flashMem : ℕ → ℕ
  erasedBlocks : List ℕ
  programLog : List (ℕ × ℕ)
  unerasedWrite : Bool
  sent : List (ℕ × List ℕ)

/-- `FlashErase(addr)`: erase the 1-KB flash block containing `addr`. -/
def FlashErase (s : FwState) (addr : ℕ) : FwState :=
  let b := blockOf addr
  { s with erasedBlocks := b :: s.erasedBlocks,
           flashMem := fun a => if blockOf a = b then 0xFFFFFFFF else s.flashMem a }

/-- `FlashProgram(&val, addr, 4)`: program one 32-bit word.  The latch
`unerasedWrite` records a program into a block not erased beforehand. -/
def FlashProgram (s : FwState) (addr val : ℕ) : FwState :=
  { s with programLog := s.programLog ++ [(addr, val)],
           flashMem := fun a => if a = addr then val else s.flashMem a,
           unerasedWrite :=
             s.unerasedWrite || !(s.erasedBlocks.contains (blockOf addr)) }

/-! ## SysTick handler (main.c lines 366-408)

The busy-wait `while (!ADCIntStatus(...)) { if (TimeOutClock++ > ADC_ReadTimeOut) ... }`
starts from `TimeOutClock = 0`; the `clock` argument mirrors `TimeOutClock`
and `k` counts the polls of the readiness oracle.  The loop runs at most
`ADC_ReadTimeOut + 2` iterations before the post-increment comparison exits,
so a fuel of `ADC_ReadTimeOut + 3` is never exhausted; the fuel-0 case is a
dead defensive branch. -/

def adcWaitAux (ready : ℕ → Bool) : ℕ → ℕ → ℕ → Bool
  | _, _, 0 => false
  | k, clock, fuel + 1 =>
    if ready k then true
    else if clock > ADC_ReadTimeOut then false
    else adcWaitAux ready (k + 1) (clock + 1) fuel

def adcWait (ready : ℕ → Bool) : Bool :=
  adcWaitAux ready 0 0 (ADC_ReadTimeOut + 3)

/-- One SysTick interrupt.  `ready` is the ADC readiness oracle for this
tick, `sample` the converted value `pui32ADC0Value[0]`.  Note that the source
passes `FlashIndex += 4` as the program address, so the cursor is advanced
before it is used. -/
def SysTickIntHandler (ready : ℕ → Bool) (sample : ℕ) (s : FwState) : FwState :=
  if adcWait ready then
    let s1 := { s with buf := (circ_bbuf_push s.buf sample).1 }
    let s2 :=
      if s1.flashIndex < FlashUserSpace + s1.flashSampleSize then
        let s3 := if s1.flashIndex &&& 0x7ff = 0x400 then FlashErase s1 s1.flashIndex else s1
        let newIndex := (s3.flashIndex + 4) % 4294967296
        { FlashProgram s3 newIndex sample with flashIndex := newIndex }
      else s1
    { s2 with globalTimer := (s2.globalTimer + 1) % 4294967296 }
  else s

/-! ## CAN receive handler (main.c lines 637-685)

A bus arrival is an optional frame (id, 8 data bytes).  Only the
address-matching branch touches the mailbox `CAN_RECV`. -/

structure CanFrame where
  id : ℕ
  msg : List ℕ

def IntCAN0Handler (arrival : Option CanFrame) (s : FwState) : FwState :=
  match arrival with
  | none => s
  | some f =>
    if f.id = CAN_ID then
      let s1 := { s with canID := f.id, canMsg := f.msg }
      let flags1 :=
        if bit_check s1.canFlags CAN_F_NEW then bit_set s1.canFlags CAN_F_OVERRUN
        else s1.canFlags
      { s1 with canFlags := bit_set flags1 CAN_F_NEW }
    else s

/-! ## Main-loop phases (main.c lines 890-1073) -/

def msgByte (s : FwState) (i : ℕ) : ℕ := s.canMsg.getD i 0

/-- Bytes 4-7 of a response, `(uint8_t)(v >> 24)` down to `(uint8_t) v`. -/
def u32bytes (v : ℕ) : List ℕ :=
  [(v >>> 24) &&& 0xFF, (v >>> 16) &&& 0xFF, (v >>> 8) &&& 0xFF, v &&& 0xFF]

/-- The response frame `CAN_RESP` as transmitted: length tag, own id,
echoed command, 32-bit result big-endian. -/
def respFrame (cmd val : ℕ) : List ℕ :=
  [0x08, (CAN_ID >>> 8) &&& 0xFF, CAN_ID &&& 0xFF, cmd] ++ u32bytes val

/-- Recompose the 32-bit result carried in bytes 4-7 of a frame. -/
def respValue (frame : List ℕ) : ℕ :=
  frame.getD 4 0 * 16777216 + frame.getD 5 0 * 65536 + frame.getD 6 0 * 256 +
    frame.getD 7 0

/-- The `switch (CAN_CMD_REQUEST)` body (main.c lines 914-1009), acting on
the state after the NEW flag has been cleared.  `canidTmp` and `canvalTmp`
are the values extracted at lines 899-900.  Unhandled codes (everything
outside 0x01-0x08, including the declared but caseless `icmdFlashGenCSV`)
fall through with no effect and no transmission. -/
def dispatchSwitch (s0 : FwState) (canidTmp canvalTmp cmd : ℕ) : FwState :=
  if cmd = icmdReadVersion then
    { s0 with sent := s0.sent ++ [(canidTmp, respFrame cmd BuildVersion)] }
  else if cmd = icmdReadData then
    let p := circ_bbuf_pop s0.buf
    let bdv := p.2.1.getD s0.bufDataVar
    { s0 with buf := p.1, bufDataVar := bdv,
              sent := s0.sent ++ [(canidTmp, respFrame cmd bdv)] }
  else if cmd = icmdFlashReadPos then
    { s0 with sent := s0.sent ++ [(canidTmp, respFrame cmd s0.flashIndex)] }
  else if cmd = icmdFlashEraseFull then
    let se := FlashErase s0 FlashUserSpace
    { se with sent := se.sent ++ [(canidTmp, respFrame cmd FlashUserSpace)] }
  else if cmd = icmdFlashStart then
    let sf := { s0 with flashIndex := FlashUserSpace }
    { sf with sent := sf.sent ++ [(canidTmp, respFrame cmd sf.flashIndex)] }
  else if cmd = icmdFlashSetSampleSize then
    let v := if canvalTmp = 0 ∨ canvalTmp > 0x10000 then 0x10000 else canvalTmp
    { s0 with flashSampleSize := v,
              sent := s0.sent ++ [(canidTmp, respFrame cmd v)] }
  else if cmd = icmdFlashStatus then
    let v := (s0.flashIndex + 4294967296 - FlashUserSpace) % 4294967296 /
        s0.flashSampleSize * 100 % 4294967296
    { s0 with sent := s0.sent ++ [(canidTmp, respFrame cmd v)] }
  else if cmd = icmdFlashGetData then
    let first := (canidTmp, respFrame cmd s0.flashSampleSize)
    let body := (List.range (s0.flashSampleSize / 4 + 1)).map
      (fun k => (canidTmp, respFrame cmd (s0.flashMem (FlashUserSpace + 4 * k))))
    { s0 with sent := s0.sent ++ first :: body ++ [(canidTmp, respFrame cmd 0)] }
  else s0

/-- The `if (bit_check(CAN_RECV.FLAGS, CAN_F_NEW))` consumer block
(main.c lines 893-1014).  After the switch, line 1012 computes
`bit_clear(CAN_RECV.FLAGS, CAN_F_NEW)` but discards the result, so it has no
effect; the heartbeat trigger reset at line 1013 runs for every consumed
frame, recognized or not. -/
def dispatchPhase (s : FwState) : FwState :=
  if bit_check s.canFlags CAN_F_NEW then
    let s0 := { s with canFlags := bit_clear s.canFlags CAN_F_NEW }
    let canidTmp := (msgByte s0 1 <<< 8) + msgByte s0 2
    let canvalTmp := (msgByte s0 3 <<< 24) + (msgByte s0 4 <<< 16) +
        (msgByte s0 5 <<< 8) + msgByte s0 6
    let s1 := dispatchSwitch s0 canidTmp canvalTmp (msgByte s0 0)
    { s1 with heatbeatTrigger := (s1.globalTimer + HeartBeatTime) % 4294967296 }
  else s

/-- The overrun check (main.c lines 1017-1021).  The source computes
`bit_clear(CAN_RECV.FLAGS, CAN_F_OVERRUN)` inside the branch but discards
the returned value, so the state is unchanged on both paths. -/
def overrunPhase (s : FwState) : FwState :=
  if bit_check s.canFlags CAN_F_OVERRUN then
    s
  else s

def heartbeatFrame (timer : ℕ) : List ℕ :=
  [0x08, (CAN_ID >>> 8) &&& 0xFF, CAN_ID &&& 0xFF, 0x7F] ++ u32bytes timer

/-- The heartbeat check (main.c lines 1053-1069). -/
def heartbeatPhase (s : FwState) : FwState :=
  if s.globalTimer > s.heatbeatTrigger then
    { s with sent := s.sent ++ [(0x7DF, heartbeatFrame s.globalTimer)],
             heatbeatTrigger := (s.globalTimer + HeartBeatTime) % 4294967296 }
  else s

/-- One iteration of the main `while (1)` loop with an optional bus arrival
processed by the trailing direct call to `IntCAN0Handler` (main.c line 1072).
The I2C command block is idle (no I2C traffic is modelled). -/
def mainLoopIter (arrival : Option CanFrame) (s : FwState) : FwState :=
  IntCAN0Handler arrival (heartbeatPhase (overrunPhase (dispatchPhase s)))

/-- The state after the initialization in `main`: globals at their initializers
(main.c lines 100-112), the circular buffer initialized, and the boot
`FlashErase(FlashUserSpace)` of line 879 performed. -/
def bootState : FwState :=
  FlashErase
    { flashIndex := 0x40000, flashSampleSize := 0x10000, globalTimer := 0,
      heatbeatTrigger := 0, buf := Init_circ_bbuf, canFlags := 0, canID := 0,
      canMsg := [0, 0, 0, 0, 0, 0, 0, 0], bufDataVar := 0,
      flashMem := fun _ => 0, erasedBlocks := [], programLog := [],
      unerasedWrite := false, sent := [] }
    FlashUserSpace

/-- Iterated SysTick interrupts with a fixed oracle and sample. -/
def runTicks (ready : ℕ → Bool) (sample : ℕ) : ℕ → FwState → FwState
  | 0, s => s
  | n + 1, s => runTicks ready sample n (SysTickIntHandler ready sample s)

/-! ## Abstract FIFO view of the circular buffer

`bufList c` lists the stored-but-unread values oldest first.  `runOps` /
`runAbs` run a sequence of push/pop operations on the concrete buffer and on
the abstract list model; the simulation theorem below is the FIFO claim. -/

def bufInv (c : circ_bbuf_t) : Prop :=
  c.maxlen = SENSORBUFSIZE ∧ c.head < SENSORBUFSIZE ∧ c.tail < SENSORBUFSIZE

def bufCount (c : circ_bbuf_t) : ℕ :=
  (c.head + SENSORBUFSIZE - c.tail) % SENSORBUFSIZE

def bufList (c : circ_bbuf_t) : List ℕ :=
  (List.range (bufCount c)).map (fun i => c.bufdata ((c.tail + i) % SENSORBUFSIZE))

lemma bufList_length (c : circ_bbuf_t) : (bufList c).length = bufCount c := by
  simp [bufList]

lemma push_fail (c : circ_bbuf_t) (d : ℕ) (h : bufInv c)
    (hfull : (bufList c).length = SENSORBUFSIZE - 1) :
    circ_bbuf_push c d = (c, -1) := by
  obtain ⟨hm, hh, ht⟩ := h
  rw [bufList_length] at hfull
  simp only [circ_bbuf_push, hm]
  rw [if_pos]
  unfold bufCount SENSORBUFSIZE at *
  split <;> omega

lemma SENSORBUFSIZE_eq : SENSORBUFSIZE = 1024 := rfl

lemma bufCount_eq (c : circ_bbuf_t) :
    bufCount c = (c.head + 1024 - c.tail) % 1024 := rfl

lemma push_ok (c : circ_bbuf_t) (d : ℕ) (h : bufInv c)
    (hnf : (bufList c).length ≠ SENSORBUFSIZE - 1) :
    (circ_bbuf_push c d).2 = 0 ∧ bufInv (circ_bbuf_push c d).1 ∧
      bufList (circ_bbuf_push c d).1 = bufList c ++ [d] := by
  obtain ⟨hm, hh, ht⟩ := h
  rw [bufList_length] at hnf
  rw [SENSORBUFSIZE_eq] at hh ht hnf
  rw [bufCount_eq] at hnf
  have hne : (if c.head + 1 ≥ c.maxlen then 0 else c.head + 1) ≠ c.tail := by
    rw [hm, SENSORBUFSIZE_eq]
    split <;> omega
  have hres : circ_bbuf_push c d =
      ({ bufdata := fun i => if i = c.head then d else c.bufdata i,
         head := if c.head + 1 ≥ c.maxlen then 0 else c.head + 1,
         tail := c.tail, maxlen := c.maxlen }, 0) := by
    simp only [circ_bbuf_push, if_neg hne]
  rw [hres]
  have hh2 : (if c.head + 1 ≥ c.maxlen then 0 else c.head + 1) < SENSORBUFSIZE := by
    rw [hm, SENSORBUFSIZE_eq]
    rw [hm, SENSORBUFSIZE_eq] at hne
    split <;> omega
  have hcnt : bufCount
      { bufdata := fun i => if i = c.head then d else c.bufdata i,
        head := if c.head + 1 ≥ c.maxlen then 0 else c.head + 1,
        tail := c.tail, maxlen := c.maxlen } = bufCount c + 1 := by
    rw [bufCount_eq, bufCount_eq]
    dsimp only
    rw [hm, SENSORBUFSIZE_eq]
    split <;> omega
  refine ⟨rfl, ⟨hm, hh2, ht⟩, ?_⟩
  unfold bufList
  rw [hcnt, List.range_succ, List.map_append]
  dsimp only
  rw [List.map_cons, List.map_nil]
  congr 1
  · refine List.map_congr_left fun i hi => ?_
    rw [List.mem_range] at hi
    have hni : (c.tail + i) % SENSORBUFSIZE ≠ c.head := by
      rw [SENSORBUFSIZE_eq]
      rw [bufCount_eq] at hi
      omega
    rw [if_neg hni]
  · have hpi : (c.tail + bufCount c) % SENSORBUFSIZE = c.head := by
      rw [SENSORBUFSIZE_eq, bufCount_eq]
      omega
    rw [hpi, if_pos rfl]

lemma pop_empty (c : circ_bbuf_t) (h : bufInv c) (he : bufList c = []) :
    circ_bbuf_pop c = (c, none, -1) := by
  obtain ⟨hm, hh, ht⟩ := h
  have hlen : bufCount c = 0 := by
    rw [← bufList_length, he, List.length_nil]
  simp only [circ_bbuf_pop]
  rw [if_pos]
  unfold bufCount SENSORBUFSIZE at *
  omega

lemma pop_cons (c : circ_bbuf_t) (h : bufInv c) (x : ℕ) (xs : List ℕ)
    (he : bufList c = x :: xs) :
    (circ_bbuf_pop c).2 = (some x, 0) ∧ bufInv (circ_bbuf_pop c).1 ∧
      bufList (circ_bbuf_pop c).1 = xs := by
  obtain ⟨hm, hh, ht⟩ := h
  rw [SENSORBUFSIZE_eq] at hh ht
  have hlen : bufCount c = xs.length + 1 := by
    rw [← bufList_length, he, List.length_cons]
  have hcv := bufCount_eq c
  have hne : c.head ≠ c.tail := by omega
  have he2 := he
  unfold bufList at he2
  rw [hlen, List.range_succ_eq_map, List.map_cons, List.map_map] at he2
  rw [List.cons.injEq] at he2
  obtain ⟨hx, hxs⟩ := he2
  have htz : (c.tail + 0) % SENSORBUFSIZE = c.tail := by
    rw [SENSORBUFSIZE_eq]
    omega
  rw [htz] at hx
  have hres : circ_bbuf_pop c =
      ({ bufdata := c.bufdata, head := c.head,
         tail := if c.tail + 1 ≥ c.maxlen then 0 else c.tail + 1,
         maxlen := c.maxlen }, some (c.bufdata c.tail), 0) := by
    simp only [circ_bbuf_pop, if_neg hne]
  rw [hres]
  have ht2 : (if c.tail + 1 ≥ c.maxlen then 0 else c.tail + 1) < SENSORBUFSIZE := by
    rw [hm, SENSORBUFSIZE_eq]
    split <;> omega
  have hcnt : bufCount
      { bufdata := c.bufdata, head := c.head,
        tail := if c.tail + 1 ≥ c.maxlen then 0 else c.tail + 1,
        maxlen := c.maxlen } = xs.length := by
    rw [bufCount_eq]
    dsimp only
    rw [hm, SENSORBUFSIZE_eq]
    split <;> omega
  refine ⟨by rw [hx], ⟨hm, by rw [SENSORBUFSIZE_eq]; exact hh, ht2⟩, ?_⟩
  unfold bufList
  rw [hcnt]
  conv_rhs => rw [← hxs]
  refine List.map_congr_left fun i hi => ?_
  rw [List.mem_range] at hi
  dsimp only [Function.comp]
  congr 1
  rw [hm, SENSORBUFSIZE_eq]
  split <;> omega

/-! ## Sequences of buffer operations -/

inductive BufOp where
  | push (d : ℕ)
  | pop

/-- Run a sequence of operations on the concrete buffer, collecting for each
operation the returned status and, for a successful pop, the popped value. -/
def runOps : circ_bbuf_t → List BufOp → circ_bbuf_t × List (Int × Option ℕ)
  | c, [] => (c, [])
  | c, BufOp.push d :: rest =>
    let r := circ_bbuf_push c d
    let k := runOps r.1 rest
    (k.1, (r.2, none) :: k.2)
  | c, BufOp.pop :: rest =>
    let r := circ_bbuf_pop c
    let k := runOps r.1 rest
    (k.1, (r.2.2, r.2.1) :: k.2)

/-- The abstract FIFO model: a list of pending values, oldest first.  A push
fails exactly at `SENSORBUFSIZE - 1` pending elements, a pop fails exactly on
the empty list and otherwise yields the oldest value. -/
def absStep (l : List ℕ) : BufOp → List ℕ × (Int × Option ℕ)
  | BufOp.push d =>
    if l.length = SENSORBUFSIZE - 1 then (l, (-1, none)) else (l ++ [d], (0, none))
  | BufOp.pop =>
    match l with
    | [] => ([], (-1, none))
    | x :: xs => (xs, (0, some x))

def runAbs : List ℕ → List BufOp → List ℕ × List (Int × Option ℕ)
  | l, [] => (l, [])
  | l, op :: rest =>
    let r := absStep l op
    let k := runAbs r.1 rest
    (k.1, r.2 :: k.2)

lemma runSim (ops : List BufOp) : ∀ c : circ_bbuf_t, bufInv c →
    (runOps c ops).2 = (runAbs (bufList c) ops).2 ∧
      bufInv (runOps c ops).1 ∧
      bufList (runOps c ops).1 = (runAbs (bufList c) ops).1 := by
  induction ops with
  | nil => exact fun c hc => ⟨rfl, hc, rfl⟩
  | cons op rest ih =>
    intro c hc
    cases op with
    | push d =>
      by_cases hfull : (bufList c).length = SENSORBUFSIZE - 1
      · have hp := push_fail c d hc hfull
        have := ih c hc
        simp only [runOps, runAbs, absStep, hp, if_pos hfull]
        exact ⟨by rw [this.1], this.2.1, this.2.2⟩
      · obtain ⟨h2, hinv, hl⟩ := push_ok c d hc hfull
        have := ih (circ_bbuf_push c d).1 hinv
        simp only [runOps, runAbs, absStep, if_neg hfull]
        refine ⟨?_, this.2.1, ?_⟩
        · rw [h2, this.1, hl]
        · rw [this.2.2, hl]
    | pop =>
      cases he : bufList c with
      | nil =>
        have hp := pop_empty c hc he
        have := ih c hc
        simp only [runOps, runAbs, absStep, hp, he]
        exact ⟨by rw [this.1, he], this.2.1, by rw [this.2.2, he]⟩
      | cons x xs =>
        obtain ⟨h2, hinv, hl⟩ := pop_cons c hc x xs he
        have := ih (circ_bbuf_pop c).1 hinv
        simp only [runOps, runAbs, absStep, he]
        refine ⟨?_, this.2.1, ?_⟩
        · rw [this.1, hl]
          have h21 : (circ_bbuf_pop c).2.1 = some x := by rw [h2]
          have h22 : (circ_bbuf_pop c).2.2 = 0 := by rw [h2]
          rw [h21, h22]
        · rw [this.2.2, hl]

lemma bufList_init : bufList Init_circ_bbuf = [] := rfl

lemma bufInv_init : bufInv Init_circ_bbuf := by
  refine ⟨rfl, ?_, ?_⟩ <;> decide

/-! ## Helper lemmas on the dispatcher and frames -/

/-- The most recently transmitted frame. -/
def lastResp (s : FwState) : List ℕ := (s.sent.getLastD (0, [])).2

lemma getLastD_concat (l : List (ℕ × List ℕ)) (x d : ℕ × List ℕ) :
    (l ++ [x]).getLastD d = x := by
  induction l generalizing d with
  | nil => rfl
  | cons a t ih =>
    rw [List.cons_append, List.getLastD_cons]
    exact ih a

lemma byte_and (x : ℕ) : x &&& 0xFF = x % 256 := by
  have h := Nat.and_pow_two_sub_one_eq_mod x 8
  norm_num at h
  exact h

lemma respValue_respFrame (cmd v : ℕ) (hv : v < 4294967296) :
    respValue (respFrame cmd v) = v := by
  show ((v >>> 24) &&& 0xFF) * 16777216 + ((v >>> 16) &&& 0xFF) * 65536 +
      ((v >>> 8) &&& 0xFF) * 256 + (v &&& 0xFF) = v
  rw [byte_and, byte_and, byte_and, byte_and, Nat.shiftRight_eq_div_pow,
      Nat.shiftRight_eq_div_pow, Nat.shiftRight_eq_div_pow]
  have e24 : (2 : ℕ) ^ 24 = 16777216 := by norm_num
  have e16 : (2 : ℕ) ^ 16 = 65536 := by norm_num
  have e8 : (2 : ℕ) ^ 8 = 256 := by norm_num
  rw [e24, e16, e8]
  omega

lemma dispatchPhase_eq (s : FwState) (h : bit_check s.canFlags CAN_F_NEW = true) :
    dispatchPhase s =
      { dispatchSwitch { s with canFlags := bit_clear s.canFlags CAN_F_NEW }
          ((msgByte s 1 <<< 8) + msgByte s 2)
          ((msgByte s 3 <<< 24) + (msgByte s 4 <<< 16) + (msgByte s 5 <<< 8) +
            msgByte s 6)
          (msgByte s 0) with
        heatbeatTrigger :=
          ((dispatchSwitch { s with canFlags := bit_clear s.canFlags CAN_F_NEW }
              ((msgByte s 1 <<< 8) + msgByte s 2)
              ((msgByte s 3 <<< 24) + (msgByte s 4 <<< 16) + (msgByte s 5 <<< 8) +
                msgByte s 6)
              (msgByte s 0)).globalTimer + HeartBeatTime) % 4294967296 } := by
  unfold dispatchPhase
  rw [if_pos h]
  rfl

lemma dispatchSwitch_canFlags (s0 : FwState) (a b c : ℕ) :
    (dispatchSwitch s0 a b c).canFlags = s0.canFlags := by
  unfold dispatchSwitch FlashErase
  repeat' split
  all_goals rfl

lemma dispatchSwitch_globalTimer (s0 : FwState) (a b c : ℕ) :
    (dispatchSwitch s0 a b c).globalTimer = s0.globalTimer := by
  unfold dispatchSwitch FlashErase
  repeat' split
  all_goals rfl

lemma dispatchSwitch_readData (s0 : FwState) (a b : ℕ) :
    dispatchSwitch s0 a b icmdReadData =
      { s0 with buf := (circ_bbuf_pop s0.buf).1,
                bufDataVar := (circ_bbuf_pop s0.buf).2.1.getD s0.bufDataVar,
                sent := s0.sent ++ [(a, respFrame icmdReadData
                  ((circ_bbuf_pop s0.buf).2.1.getD s0.bufDataVar))] } := by
  unfold dispatchSwitch
  rw [if_neg (by decide), if_pos rfl]

lemma dispatchSwitch_flashStatus (s0 : FwState) (a b : ℕ) :
    dispatchSwitch s0 a b icmdFlashStatus =
      { s0 with sent := s0.sent ++ [(a, respFrame icmdFlashStatus
          ((s0.flashIndex + 4294967296 - FlashUserSpace) % 4294967296 /
            s0.flashSampleSize * 100 % 4294967296))] } := by
  unfold dispatchSwitch
  rw [if_neg (by decide), if_neg (by decide), if_neg (by decide),
      if_neg (by decide), if_neg (by decide), if_neg (by decide), if_pos rfl]

lemma dispatchSwitch_default (s0 : FwState) (a b c : ℕ)
    (hc : ¬(1 ≤ c ∧ c ≤ 8)) :
    dispatchSwitch s0 a b c = s0 := by
  unfold dispatchSwitch
  rw [if_neg (by simp only [icmdReadVersion]; omega),
      if_neg (by simp only [icmdReadData]; omega),
      if_neg (by simp only [icmdFlashReadPos]; omega),
      if_neg (by simp only [icmdFlashEraseFull]; omega),
      if_neg (by simp only [icmdFlashStart]; omega),
      if_neg (by simp only [icmdFlashSetSampleSize]; omega),
      if_neg (by simp only [icmdFlashStatus]; omega),
      if_neg (by simp only [icmdFlashGetData]; omega)]

/-! Facts about the flag bits, for `FLAGS` values in the range of a `char`. -/

lemma bit_set_new_overrun : ∀ x < 256,
    bit_check (bit_set x CAN_F_NEW) CAN_F_OVERRUN = bit_check x CAN_F_OVERRUN := by
  decide

lemma bit_set_overrun_new_overrun : ∀ x < 256,
    bit_check (bit_set (bit_set x CAN_F_OVERRUN) CAN_F_NEW) CAN_F_OVERRUN = true := by
  decide

lemma bit_set_new_new : ∀ x < 256,
    bit_check (bit_set x CAN_F_NEW) CAN_F_NEW = true := by
  decide

lemma bit_set_overrun_new_new : ∀ x < 256,
    bit_check (bit_set (bit_set x CAN_F_OVERRUN) CAN_F_NEW) CAN_F_NEW = true := by
  decide

lemma bit_clear_new_new : ∀ x < 256,
    bit_check (bit_clear x CAN_F_NEW) CAN_F_NEW = false := by
  decide

/-! ## Concrete scenario states -/

/-- A request frame carrying command `c` with reply destination 0x0200 and a
zero argument. -/
def cmdFrame (c : ℕ) : CanFrame := ⟨CAN_ID, [c, 0x02, 0x00, 0, 0, 0, 0, 0]⟩

/-- Submit a frame through the CAN receive handler and let the main loop
consume it. -/
def submitCmd (c : ℕ) (s : FwState) : FwState :=
  dispatchPhase (IntCAN0Handler (some (cmdFrame c)) s)

/-- Boot state after an `icmdFlashStart` command: `FlashIndex = FlashUserSpace`. -/
def sAfterFlashStart : FwState := submitCmd icmdFlashStart bootState

/-- 256 successful sampling ticks after `icmdFlashStart`. -/
def sAfterTicks256 : FwState := runTicks (fun _ => true) 0 256 sAfterFlashStart

/-! ## Claims -/

/-- C1: the claim says the 4-byte sample is programmed at the current cursor
and the cursor advanced by 4 afterwards, the first sample after a FlashStart
reset landing at the base address.  The code passes `FlashIndex += 4` as the
program address, so on the first tick after FlashStart (cursor = base =
0x30000) the sample is programmed at 0x30004 and the cursor ends at 0x30004:
address 0x30000 is never programmed.  This contradicts the source comment
"increment FlashIndex after writing 4 bytes" (main.c line 402). -/
theorem first_sample_written_above_base :
    sAfterFlashStart.flashIndex = FlashUserSpace ∧
    (SysTickIntHandler (fun _ => true) 0xABC sAfterFlashStart).programLog =
      [(FlashUserSpace + 4, 0xABC)] ∧
    (SysTickIntHandler (fun _ => true) 0xABC sAfterFlashStart).flashIndex =
      FlashUserSpace + 4 := by
  decide

/-- C2: the claim says a block is erased before the cursor crosses into it,
triggered exactly at block boundaries.  The code triggers an erase only when
`FlashIndex & 0x7ff == 0x400`, i.e. every second 1-KB block.  Running 256
successful ticks after FlashStart, the only block ever erased is the boot
erase of 0x30000, the erase condition never fires, and the 256th sample is
programmed at address 0x30400 inside the never-erased block [0x30400,
0x30800): an unerased program operation, violating the hard invariant the
code comment "Erase 0x400 black at a time" (main.c line 399) intends. -/
theorem unerased_block_programmed :
    ((0x303FC : ℕ) &&& 0x7FF = 0x400) = False ∧
    sAfterTicks256.erasedBlocks = [0x30000] ∧
    sAfterTicks256.programLog.contains (0x30400, 0) = true ∧
    sAfterTicks256.unerasedWrite = true := by
  decide

/-- State with only the overrun flag set, no pending frame. -/
def sOverrunOnly : FwState := { bootState with canFlags := 4 }

/-- C3: the claim says the main loop clears the overrun flag upon observing
it, leaving it false after the iteration.  In the code the result of
`bit_clear(CAN_RECV.FLAGS, CAN_F_OVERRUN)` (main.c line 1020) is discarded
instead of assigned back (contrast line 896), so a full main-loop iteration
leaves the overrun bit set; `bit_clear` itself would have produced 0. -/
theorem overrun_flag_not_cleared :
    bit_check sOverrunOnly.canFlags CAN_F_OVERRUN = true ∧
    (mainLoopIter none sOverrunOnly).canFlags = 4 ∧
    bit_check (mainLoopIter none sOverrunOnly).canFlags CAN_F_OVERRUN = true ∧
    bit_clear sOverrunOnly.canFlags CAN_F_OVERRUN = 0 := by
  decide

/-- C4: for every sequence of pushes and pops from the freshly initialized
buffer, the concrete circular buffer produces exactly the outputs of the
abstract FIFO model (push fails with -1 exactly at SENSORBUFSIZE - 1 = 1023
pending elements, pop fails with -1 exactly when empty, a successful pop
returns the oldest pending value), and afterwards a further push fails iff
the pending list holds 1023 elements, a further pop fails iff it is empty and
otherwise pops the oldest pending value. -/
theorem fifo_ring_store_correct (ops : List BufOp) :
    (runOps Init_circ_bbuf ops).2 = (runAbs [] ops).2 ∧
    bufList (runOps Init_circ_bbuf ops).1 = (runAbs [] ops).1 ∧
    (∀ d : ℕ, (circ_bbuf_push (runOps Init_circ_bbuf ops).1 d).2 = -1 ↔
      (runAbs [] ops).1.length = SENSORBUFSIZE - 1) ∧
    ((circ_bbuf_pop (runOps Init_circ_bbuf ops).1).2.2 = -1 ↔
      (runAbs [] ops).1 = []) ∧
    (∀ (x : ℕ) (xs : List ℕ), (runAbs [] ops).1 = x :: xs →
      (circ_bbuf_pop (runOps Init_circ_bbuf ops).1).2.1 = some x) := by
  have hsim := runSim ops Init_circ_bbuf bufInv_init
  rw [bufList_init] at hsim
  obtain ⟨houts, hinv, hlist⟩ := hsim
  refine ⟨houts, hlist, ?_, ?_, ?_⟩
  · intro d
    constructor
    · intro hfail
      by_contra hnf
      rw [← hlist] at hnf
      have := (push_ok _ d hinv (by rw [bufList_length] at hnf ⊢; exact hnf)).1
      rw [hfail] at this
      exact absurd this (by decide)
    · intro hfull
      rw [← hlist] at hfull
      have := push_fail _ d hinv (by rw [bufList_length]; rw [bufList_length] at hfull; exact hfull)
      rw [this]
  · constructor
    · intro hfail
      by_contra hne
      obtain ⟨x, xs, hcons⟩ : ∃ x xs, (runAbs [] ops).1 = x :: xs := by
        cases hh : (runAbs [] ops).1 with
        | nil => exact absurd hh hne
        | cons x xs => exact ⟨x, xs, rfl⟩
      have := (pop_cons _ hinv x xs (by rw [hlist]; exact hcons)).1
      have h22 : (circ_bbuf_pop (runOps Init_circ_bbuf ops).1).2.2 = 0 := by rw [this]
      rw [hfail] at h22
      exact absurd h22 (by decide)
    · intro hemp
      have := pop_empty _ hinv (by rw [hlist]; exact hemp)
      rw [this]
  · intro x xs hcons
    have := (pop_cons _ hinv x xs (by rw [hlist]; exact hcons)).1
    rw [this]

/-- C4 witness: pushing 5 then 7 and popping returns 5, matching the
abstract model output. -/
theorem fifo_ring_store_correct_witness :
    (runOps Init_circ_bbuf [BufOp.push 5, BufOp.push 7]).2 =
      (runAbs [] [BufOp.push 5, BufOp.push 7]).2 ∧
    (circ_bbuf_pop (runOps Init_circ_bbuf [BufOp.push 5, BufOp.push 7]).1).2.1 =
      some 5 := by
  refine ⟨(fifo_ring_store_correct [BufOp.push 5, BufOp.push 7]).1, ?_⟩
  exact (fifo_ring_store_correct [BufOp.push 5, BufOp.push 7]).2.2.2.2 5 [7]
    (by decide)

/-- C10: a tick whose ADC busy-wait times out (readiness oracle false for the
whole bounded wait) leaves the entire firmware state unchanged: nothing is
pushed into the sensor buffer, no flash erase or program occurs, and the
global tick counter is not incremented. -/
theorem tick_timeout_no_effect (ready : ℕ → Bool) (sample : ℕ) (s : FwState)
    (h : adcWait ready = false) :
    SysTickIntHandler ready sample s = s := by
  unfold SysTickIntHandler
  rw [h]
  rfl

/-- C10 witness: a never-ready ADC times out and the tick leaves the boot
state unchanged. -/
theorem tick_timeout_no_effect_witness :
    adcWait (fun _ => false) = false ∧
    SysTickIntHandler (fun _ => false) 7 bootState = bootState :=
  ⟨by decide, tick_timeout_no_effect (fun _ => false) 7 bootState (by decide)⟩

/-! ## C5: ReadData on an empty store -/

/-- One tick pushes sample 7; the first ReadData pops it, leaving the store
empty with `BufDataVar = 7`. -/
def sC5a : FwState :=
  submitCmd icmdReadData (SysTickIntHandler (fun _ => true) 7 bootState)

def sC5b : FwState := submitCmd icmdReadData sC5a

/-- C5 counterexample: the claim says a ReadData handled while the store is
empty responds with 0.  After a sample 7 is pushed and popped once, the
store is empty, yet the next ReadData responds with 7: the failed pop leaves
`BufDataVar` at its previous value because the return code of
`circ_bbuf_pop` is ignored (main.c line 927). -/
theorem readdata_empty_nonzero_response :
    sC5a.buf.head = sC5a.buf.tail ∧
    respValue (lastResp sC5b) = 7 ∧ (7 : ℕ) ≠ 0 := by
  decide

/-- C5 amended: a ReadData handled while the store is empty responds with
the current `BufDataVar` (0 at boot, otherwise the last successfully popped
value) and leaves it unchanged; when the store is non-empty the response
carries the popped oldest entry. -/
theorem readdata_empty_returns_last_value (s : FwState)
    (hnew : bit_check s.canFlags CAN_F_NEW = true)
    (hcmd : msgByte s 0 = icmdReadData) :
    (s.buf.head = s.buf.tail →
      (dispatchPhase s).sent = s.sent ++
        [((msgByte s 1 <<< 8) + msgByte s 2,
          respFrame icmdReadData s.bufDataVar)] ∧
      (dispatchPhase s).bufDataVar = s.bufDataVar) ∧
    (s.buf.head ≠ s.buf.tail →
      (dispatchPhase s).sent = s.sent ++
        [((msgByte s 1 <<< 8) + msgByte s 2,
          respFrame icmdReadData (s.buf.bufdata s.buf.tail))] ∧
      (dispatchPhase s).bufDataVar = s.buf.bufdata s.buf.tail) := by
  rw [dispatchPhase_eq s hnew, hcmd, dispatchSwitch_readData]
  constructor
  · intro hemp
    have hpop : circ_bbuf_pop s.buf = (s.buf, none, -1) := by
      unfold circ_bbuf_pop
      rw [if_pos hemp]
    dsimp only
    rw [hpop]
    exact ⟨rfl, rfl⟩
  · intro hne
    have hpop : circ_bbuf_pop s.buf =
        ({ s.buf with
            tail := if s.buf.tail + 1 ≥ s.buf.maxlen then 0 else s.buf.tail + 1 },
          some (s.buf.bufdata s.buf.tail), 0) := by
      simp only [circ_bbuf_pop, if_neg hne]
    dsimp only
    rw [hpop]
    exact ⟨rfl, rfl⟩

def sC5w : FwState := IntCAN0Handler (some (cmdFrame icmdReadData)) bootState

/-- C5 amended witness: at boot (empty store, `BufDataVar = 0`) a ReadData
responds with `BufDataVar` and leaves it unchanged. -/
theorem readdata_empty_returns_last_value_witness :
    (dispatchPhase sC5w).sent = sC5w.sent ++
      [((msgByte sC5w 1 <<< 8) + msgByte sC5w 2,
        respFrame icmdReadData sC5w.bufDataVar)] ∧
    (dispatchPhase sC5w).bufDataVar = sC5w.bufDataVar :=
  (readdata_empty_returns_last_value sC5w (by decide) (by decide)).1 (by decide)

/-! ## C6: mailbox producer/consumer contract -/

def c6Frame : CanFrame := ⟨CAN_ID, [0x01, 0x02, 0, 0, 0, 0, 0, 0]⟩

def c6State : FwState := { bootState with canFlags := 2 }

/-- C6: an address-matching arrival unconditionally overwrites the stored
frame; after the arrival the overrun flag is set exactly when it was already
set or the new flag was still set (so it becomes set iff the new flag was
true at arrival, and is never cleared by the producer); the new flag is set
after the arrival; and the consumer clears the new flag when it consumes a
frame. -/
theorem mailbox_submit_contract (s : FwState) (f : CanFrame)
    (hid : f.id = CAN_ID) (hflags : s.canFlags < 256) :
    (IntCAN0Handler (some f) s).canMsg = f.msg ∧
    bit_check (IntCAN0Handler (some f) s).canFlags CAN_F_OVERRUN =
      (bit_check s.canFlags CAN_F_OVERRUN || bit_check s.canFlags CAN_F_NEW) ∧
    bit_check (IntCAN0Handler (some f) s).canFlags CAN_F_NEW = true ∧
    (bit_check s.canFlags CAN_F_NEW = true →
      bit_check (dispatchPhase s).canFlags CAN_F_NEW = false) := by
  have hh : IntCAN0Handler (some f) s =
      { s with canID := f.id, canMsg := f.msg,
               canFlags := bit_set
                 (if bit_check s.canFlags CAN_F_NEW then
                    bit_set s.canFlags CAN_F_OVERRUN
                  else s.canFlags) CAN_F_NEW } := by
    unfold IntCAN0Handler
    dsimp only
    rw [if_pos hid]
  rw [hh]
  refine ⟨rfl, ?_, ?_, ?_⟩
  · dsimp only
    cases hnew : bit_check s.canFlags CAN_F_NEW with
    | false =>
      rw [if_neg Bool.false_ne_true, Bool.or_false]
      exact bit_set_new_overrun s.canFlags hflags
    | true =>
      rw [if_pos rfl, Bool.or_true]
      exact bit_set_overrun_new_overrun s.canFlags hflags
  · dsimp only
    cases hnew : bit_check s.canFlags CAN_F_NEW with
    | false =>
      rw [if_neg Bool.false_ne_true]
      exact bit_set_new_new s.canFlags hflags
    | true =>
      rw [if_pos rfl]
      exact bit_set_overrun_new_new s.canFlags hflags
  · intro hnew
    rw [dispatchPhase_eq s hnew]
    show bit_check (dispatchSwitch { s with canFlags := bit_clear s.canFlags CAN_F_NEW }
        ((msgByte s 1 <<< 8) + msgByte s 2)
        ((msgByte s 3 <<< 24) + (msgByte s 4 <<< 16) + (msgByte s 5 <<< 8) +
          msgByte s 6)
        (msgByte s 0)).canFlags CAN_F_NEW = false
    rw [dispatchSwitch_canFlags]
    exact bit_clear_new_new s.canFlags hflags

/-- C6 witness at a state whose new flag is already set: the overrun flag
becomes set, the frame is overwritten, and consumption clears the new flag. -/
theorem mailbox_submit_contract_witness :
    (IntCAN0Handler (some c6Frame) c6State).canMsg = c6Frame.msg ∧
    bit_check (IntCAN0Handler (some c6Frame) c6State).canFlags CAN_F_OVERRUN =
      (bit_check c6State.canFlags CAN_F_OVERRUN ||
        bit_check c6State.canFlags CAN_F_NEW) ∧
    bit_check (IntCAN0Handler (some c6Frame) c6State).canFlags CAN_F_NEW = true ∧
    bit_check (dispatchPhase c6State).canFlags CAN_F_NEW = false := by
  have h := mailbox_submit_contract c6State c6Frame rfl (by decide)
  exact ⟨h.1, h.2.1, h.2.2.1, h.2.2.2 (by decide)⟩

/-! ## C7: FlashStatus formula -/

/-- Boot state after a FlashSetSampleSize command with argument 0x9000
(within the accepted range, not clamped). -/
def sC7 : FwState :=
  dispatchPhase (IntCAN0Handler
    (some ⟨CAN_ID, [0x06, 0x02, 0x00, 0x00, 0x00, 0x90, 0x00, 0]⟩) bootState)

/-- C7 counterexample: with `FlashSampleSize = 0x9000` (which satisfies
`sampleSize ≤ size` for the 0x10000-byte region, the window the code uses)
and the boot cursor `FlashIndex = 0x40000`, FlashStatus responds 100 even
though `FlashIndex ≠ FlashUserSpace + FlashSampleSize` (0x40000 ≠ 0x39000):
"result = 100 exactly when index = base + sampleSize" fails, because the
truncating division `(index - base) / sampleSize` is 1 on the whole interval
`[base + sampleSize, base + 2*sampleSize)`. -/
theorem flashstatus_counterexample :
    sC7.flashSampleSize = 0x9000 ∧ ((0x9000 : ℕ) ≤ 0x10000) = True ∧
    sC7.flashIndex = 0x40000 ∧
    respValue (lastResp (submitCmd icmdFlashStatus sC7)) = 100 ∧
    (sC7.flashIndex = FlashUserSpace + sC7.flashSampleSize) = False := by
  decide

/-- C7 amended: the FlashStatus response is
`(index - base) / sampleSize * 100` in exact unsigned integer arithmetic
(division first, then multiplication); it equals 100 exactly when
`sampleSize ≤ index - base < 2*sampleSize`, and under the additional bound
`index ≤ base + sampleSize` (the in-window invariant, with the sample size
playing the role of the window size as in the code) exactly when
`index = base + sampleSize`. -/
theorem flashstatus_formula (s : FwState)
    (hnew : bit_check s.canFlags CAN_F_NEW = true)
    (hcmd : msgByte s 0 = icmdFlashStatus)
    (hb : FlashUserSpace ≤ s.flashIndex) (hi : s.flashIndex ≤ 0x40000)
    (hs : 0 < s.flashSampleSize) :
    respValue (lastResp (dispatchPhase s)) =
      (s.flashIndex - FlashUserSpace) / s.flashSampleSize * 100 ∧
    (respValue (lastResp (dispatchPhase s)) = 100 ↔
      s.flashSampleSize ≤ s.flashIndex - FlashUserSpace ∧
        s.flashIndex - FlashUserSpace < 2 * s.flashSampleSize) ∧
    (s.flashIndex ≤ FlashUserSpace + s.flashSampleSize →
      (respValue (lastResp (dispatchPhase s)) = 100 ↔
        s.flashIndex = FlashUserSpace + s.flashSampleSize)) := by
  rw [dispatchPhase_eq s hnew, hcmd, dispatchSwitch_flashStatus]
  have hb2 : (196608 : ℕ) ≤ s.flashIndex := hb
  have hsub : (s.flashIndex + 4294967296 - FlashUserSpace) % 4294967296 =
      s.flashIndex - FlashUserSpace := by
    unfold FlashUserSpace
    omega
  have hqb : (s.flashIndex - FlashUserSpace) / s.flashSampleSize * 100 <
      4294967296 := by
    have hq := Nat.div_le_self (s.flashIndex - FlashUserSpace) s.flashSampleSize
    unfold FlashUserSpace at *
    omega
  have hmod : (s.flashIndex - FlashUserSpace) / s.flashSampleSize * 100 %
      4294967296 = (s.flashIndex - FlashUserSpace) / s.flashSampleSize * 100 :=
    Nat.mod_eq_of_lt hqb
  unfold lastResp
  dsimp only
  rw [getLastD_concat]
  dsimp only
  rw [hsub, hmod, respValue_respFrame icmdFlashStatus _ hqb]
  have h1 : 1 ≤ (s.flashIndex - FlashUserSpace) / s.flashSampleSize ↔
      s.flashSampleSize ≤ s.flashIndex - FlashUserSpace := by
    rw [Nat.le_div_iff_mul_le hs, Nat.one_mul]
  have h2 : (s.flashIndex - FlashUserSpace) / s.flashSampleSize < 2 ↔
      s.flashIndex - FlashUserSpace < 2 * s.flashSampleSize := by
    rw [Nat.div_lt_iff_lt_mul hs, Nat.mul_comm]
  generalize hq : (s.flashIndex - FlashUserSpace) / s.flashSampleSize = q
  rw [hq] at h1 h2
  unfold FlashUserSpace at *
  refine ⟨rfl, by omega, fun h3 => by omega⟩

def sC7w : FwState := IntCAN0Handler (some (cmdFrame icmdFlashStatus)) bootState

/-- C7 amended witness: at boot (`index = 0x40000`, `sampleSize = 0x10000`)
FlashStatus responds 100 and `index = base + sampleSize` holds. -/
theorem flashstatus_formula_witness :
    respValue (lastResp (dispatchPhase sC7w)) =
      (sC7w.flashIndex - FlashUserSpace) / sC7w.flashSampleSize * 100 ∧
    (respValue (lastResp (dispatchPhase sC7w)) = 100 ↔
      sC7w.flashIndex = FlashUserSpace + sC7w.flashSampleSize) := by
  have h := flashstatus_formula sC7w (by decide) (by decide) (by decide)
    (by decide) (by decide)
  exact ⟨h.1, h.2.2 (by decide)⟩

/-! ## C8: heartbeat gating -/

inductive SpecStreamMode where
  | Stopped
  | Realtime
  | Buffered
deriving DecidableEq

/-- Modelled from the spec: the streaming mode enumeration
{Stopped, Realtime, Buffered} of the specification; nothing in src/main.c
declares or stores such a mode. -/
def specHeartbeatFires (mode : SpecStreamMode) (timer trigger : ℕ) : Prop :=
  trigger < timer ∧ mode = SpecStreamMode.Stopped

/-- The heartbeat gate exactly as the code computes it (main.c line 1053):
the tick counter alone, with no streaming-mode conjunct. -/
def codeHeartbeatFires (timer trigger : ℕ) : Prop := trigger < timer

def sC8 : FwState := { bootState with globalTimer := 1 }

/-- C8 counterexample: the claim gates heartbeat emission on
`StreamMode == Stopped` in addition to the timer comparison.  The gate in
the code has no mode conjunct (no streaming mode exists in the program state),
so whenever the timer exceeds the deadline a heartbeat is emitted, although
the spec-side gate forbids it for the mode Realtime at the same timer
values: the firing condition of the code does not refine the claimed one. -/
theorem heartbeat_no_mode_gate :
    codeHeartbeatFires sC8.globalTimer sC8.heatbeatTrigger ∧
    (heartbeatPhase sC8).sent = [(0x7DF, heartbeatFrame 1)] ∧
    ¬ specHeartbeatFires SpecStreamMode.Realtime sC8.globalTimer
        sC8.heatbeatTrigger := by
  unfold codeHeartbeatFires specHeartbeatFires
  decide

/-- C8 amended: a heartbeat is emitted exactly when the tick counter exceeds
the deadline (no mode gate exists); after emission the deadline becomes
counter + interval (mod 2^32), so the check re-fires only once the counter
again exceeds the updated deadline; and handling any consumed command also
resets the deadline to counter + interval. -/
theorem heartbeat_fires_iff (s : FwState) :
    ((heartbeatPhase s).sent ≠ s.sent ↔
      codeHeartbeatFires s.globalTimer s.heatbeatTrigger) ∧
    (s.heatbeatTrigger < s.globalTimer →
      (heartbeatPhase s).sent = s.sent ++
        [(0x7DF, heartbeatFrame s.globalTimer)] ∧
      (heartbeatPhase s).heatbeatTrigger =
        (s.globalTimer + HeartBeatTime) % 4294967296) ∧
    (¬ s.heatbeatTrigger < s.globalTimer → heartbeatPhase s = s) ∧
    (bit_check s.canFlags CAN_F_NEW = true →
      (dispatchPhase s).heatbeatTrigger =
        (s.globalTimer + HeartBeatTime) % 4294967296) := by
  refine ⟨?_, ?_, ?_, ?_⟩
  · by_cases h : s.heatbeatTrigger < s.globalTimer
    · unfold heartbeatPhase
      rw [if_pos h]
      dsimp only
      refine ⟨fun _ => h, fun _ heq => ?_⟩
      have hl := congrArg List.length heq
      rw [List.length_append] at hl
      simp at hl
    · unfold heartbeatPhase
      rw [if_neg h]
      exact ⟨fun hne => absurd rfl hne, fun hf => absurd hf h⟩
  · intro h
    unfold heartbeatPhase
    rw [if_pos h]
    exact ⟨rfl, rfl⟩
  · intro h
    unfold heartbeatPhase
    rw [if_neg h]
  · intro hnew
    rw [dispatchPhase_eq s hnew]
    show ((dispatchSwitch { s with canFlags := bit_clear s.canFlags CAN_F_NEW }
        ((msgByte s 1 <<< 8) + msgByte s 2)
        ((msgByte s 3 <<< 24) + (msgByte s 4 <<< 16) + (msgByte s 5 <<< 8) +
          msgByte s 6)
        (msgByte s 0)).globalTimer + HeartBeatTime) % 4294967296 =
      (s.globalTimer + HeartBeatTime) % 4294967296
    rw [dispatchSwitch_globalTimer]

def sC8w : FwState := { bootState with globalTimer := 1, canFlags := 2 }

/-- C8 amended witness: with counter 1 past deadline 0 a heartbeat is sent,
and a pending consumed command resets the deadline to counter + interval. -/
theorem heartbeat_fires_iff_witness :
    (heartbeatPhase sC8w).sent = sC8w.sent ++ [(0x7DF, heartbeatFrame 1)] ∧
    (dispatchPhase sC8w).heatbeatTrigger = (1 + HeartBeatTime) % 4294967296 := by
  have h := heartbeat_fires_iff sC8w
  exact ⟨(h.2.1 (by decide)).1, h.2.2.2 (by decide)⟩

/-! ## C9: streaming-mode state machine -/

/-- Modelled from the spec: the spec anchors ReadVersion at code 0x01 and
lists the command codes in order as stable small positive integers, which
places StreamRealtime at 0x02. -/
def specCode_StreamRealtime : ℕ := 0x02

/-- Modelled from the spec: StopStreaming is the fourth listed command,
code 0x04 under the same numbering. -/
def specCode_StopStreaming : ℕ := 0x04

/-- Modelled from the spec: StreamingStatus is the fifth listed command,
code 0x05 under the same numbering. -/
def specCode_StreamingStatus : ℕ := 0x05

/-- C9 counterexample: per the claim, StreamRealtime followed by
StreamingStatus must report Realtime while StopStreaming followed by
StreamingStatus must report Stopped -- two distinct values of the
enumeration.  In the code the status-position query returns the constant
FlashUserSpace = 0x30000 after either sequence (codes 0x02/0x04/0x05 are
ReadData/FlashReadPos/FlashEraseFull), so no three-state mode is reported
and no StreamMode state exists in the dispatcher at all. -/
theorem streaming_status_not_distinguishing :
    respValue (lastResp (submitCmd specCode_StreamingStatus
      (submitCmd specCode_StreamRealtime bootState))) = FlashUserSpace ∧
    respValue (lastResp (submitCmd specCode_StreamingStatus
      (submitCmd specCode_StopStreaming bootState))) = FlashUserSpace := by
  decide

/-- C9 amended: the dispatcher implements no streaming machinery.  It
recognizes exactly the command codes 0x01-0x08 (`icmdFlashGenCSV` = 0x09 is
declared but has no case); dispatching any other code -- in particular any
code a streaming command could occupy -- sends no response and changes
nothing except clearing the mailbox new-frame flag and resetting the
heartbeat deadline.  No field of the program state holds a streaming mode. -/
theorem dispatcher_no_streaming (s : FwState) (c : ℕ)
    (hnew : bit_check s.canFlags CAN_F_NEW = true)
    (hcmd : msgByte s 0 = c) (hc : ¬(1 ≤ c ∧ c ≤ 8)) :
    (dispatchPhase s).sent = s.sent ∧
    (dispatchPhase s).flashIndex = s.flashIndex ∧
    (dispatchPhase s).flashSampleSize = s.flashSampleSize ∧
    (dispatchPhase s).buf = s.buf ∧
    (dispatchPhase s).bufDataVar = s.bufDataVar ∧
    (dispatchPhase s).erasedBlocks = s.erasedBlocks ∧
    (dispatchPhase s).programLog = s.programLog ∧
    (dispatchPhase s).canFlags = bit_clear s.canFlags CAN_F_NEW ∧
    (dispatchPhase s).heatbeatTrigger =
      (s.globalTimer + HeartBeatTime) % 4294967296 := by
  rw [dispatchPhase_eq s hnew, hcmd,
      dispatchSwitch_default { s with canFlags := bit_clear s.canFlags CAN_F_NEW }
        ((msgByte s 1 <<< 8) + msgByte s 2)
        ((msgByte s 3 <<< 24) + (msgByte s 4 <<< 16) + (msgByte s 5 <<< 8) +
          msgByte s 6) c hc]
  exact ⟨rfl, rfl, rfl, rfl, rfl, rfl, rfl, rfl, rfl⟩

def sC9w : FwState := IntCAN0Handler (some (cmdFrame 0x0A)) bootState

/-- C9 amended witness: dispatching the unrecognized code 0x0A sends nothing
and only clears the new flag and resets the heartbeat deadline. -/
theorem dispatcher_no_streaming_witness :
    (dispatchPhase sC9w).sent = sC9w.sent ∧
    (dispatchPhase sC9w).flashIndex = sC9w.flashIndex ∧
    (dispatchPhase sC9w).canFlags = bit_clear sC9w.canFlags CAN_F_NEW ∧
    (dispatchPhase sC9w).heatbeatTrigger =
      (sC9w.globalTimer + HeartBeatTime) % 4294967296 := by
  have h := dispatcher_no_streaming sC9w 0x0A (by decide) (by decide) (by decide)
  exact ⟨h.1, h.2.1, h.2.2.2.2.2.2.2.1, h.2.2.2.2.2.2.2.2⟩
